import Mathlib

/-!
Verification of the hand-raiser coordinator (`src/audience.py`) and actuator
controller (`src/robot.py`).

The embedding is shallow: each Python coroutine becomes a pure Lean function
from an explicit state to a new state together with the ordered list of
externally observable actions ("events") it performs.  Awaiting the servo,
starting the background wiggle task, cancelling it and awaiting its exit,
logging a "LOGIC BUG" warning, sleeping, and closing the client connection
each show up as one event.  Because every coordinator operation runs its whole
body under the single `asyncio.Lock`, a call is one atomic state transition;
the lock itself is modelled separately, at instruction granularity, in the
`Conc` namespace for the concurrency claim.

A second, fallible variant of each operation (suffix `E`) models the fact that
`Servo.move` is awaited and may raise: the extra `Bool` argument says whether
the (unique) servo move of that call fails, and the result is `Except`, whose
`error` payload is the state and the events already performed at the moment
the exception escapes the call.
-/

namespace HandRaiser

/-- `Robot.UPPER_POSITION` in `src/robot.py`. -/
def UPPER_POSITION : Int := 93

/-- `Robot.LOWER_POSITION` in `src/robot.py`. -/
def LOWER_POSITION : Int := 152

/-- `Robot.WIGGLE_AMOUNT` in `src/robot.py`: move this much left and right of
`UPPER_POSITION`. -/
def WIGGLE_AMOUNT : Int := 7

/-- One externally observable action of the program. -/
inductive Event where
  /-- `await self.servo.move(target)` succeeded, commanding the given target. -/
  | servoMove (target : Int)
  /-- `asyncio.create_task(self.wiggle_on_inactivity())` in `raise_hand`. -/
  | taskStart
  /-- `self.wiggler.cancel()` in `lower_hand`. -/
  | taskCancel
  /-- `await self.wiggler` in `lower_hand` returned: the task has fully exited. -/
  | taskAwaitExit
  /-- `self.logger.warning("LOGIC BUG: ...")` in `raise_hand`/`lower_hand`. -/
  | warnLogicBug
  /-- `await asyncio.sleep(INACTIVITY_PERIOD_S)` in the background task. -/
  | sleepInactivity
  /-- `await asyncio.sleep(WIGGLE_DELAY_S)` in the background task. -/
  | sleepWiggle
  /-- `await client.close()` in `create_robot`. -/
  | closeConnection
deriving Repr, DecidableEq

/-- The mutable state of a `Robot` object (`src/robot.py`): whether
`self.wiggler` currently holds a task handle (`None` becomes `false`), and the
last servo position successfully commanded by `raise_hand`/`lower_hand`/
`start`. -/
structure RobotState where
  wiggler : Bool
  pos : Int
deriving Repr, DecidableEq

/-- `Robot.raise_hand`: if a wiggle task is already running, warn and return;
otherwise move the servo to `UPPER_POSITION` and start the wiggle task. -/
def raise_hand (r : RobotState) : RobotState × List Event :=
  if r.wiggler then
    (r, [.warnLogicBug])
  else
    ({ wiggler := true, pos := UPPER_POSITION }, [.servoMove UPPER_POSITION, .taskStart])

/-- `Robot.lower_hand`: if no wiggle task is running, warn and return;
otherwise cancel the wiggle task, await its exit, clear the handle, and move
the servo to `LOWER_POSITION`. -/
def lower_hand (r : RobotState) : RobotState × List Event :=
  if r.wiggler then
    ({ wiggler := false, pos := LOWER_POSITION },
     [.taskCancel, .taskAwaitExit, .servoMove LOWER_POSITION])
  else
    (r, [.warnLogicBug])

/-- `Robot.start`: move the servo to the lowered position. -/
def robot_start (r : RobotState) : RobotState × List Event :=
  ({ wiggler := r.wiggler, pos := LOWER_POSITION }, [.servoMove LOWER_POSITION])

/-- `Robot.stop`: if a wiggle task exists, lower the hand; otherwise do
nothing. -/
def robot_stop (r : RobotState) : RobotState × List Event :=
  if r.wiggler then lower_hand r else (r, [])

/-- The mutable state of an `Audience` object (`src/audience.py`): the count
of raised hands and the `Robot` it drives.  Every public operation holds
`self.mutex` for its full body, so each is a single atomic transition here. -/
structure AudienceState where
  count : Int
  robot : RobotState
deriving Repr, DecidableEq

/-- `Audience.increment_count`: under the mutex, `self.count += 1`; if the
count became exactly 1, `await self.robot.raise_hand()`. -/
def increment_count (s : AudienceState) : AudienceState × List Event :=
  let c := s.count + 1
  if c = 1 then
    ({ count := c, robot := (raise_hand s.robot).1 }, (raise_hand s.robot).2)
  else
    ({ count := c, robot := s.robot }, [])

/-- `Audience.decrement_count`: under the mutex, `self.count -= 1`; if the
count became exactly 0, `await self.robot.lower_hand()`.  The decrement is
unguarded: nothing stops the count from going negative. -/
def decrement_count (s : AudienceState) : AudienceState × List Event :=
  let c := s.count - 1
  if c = 0 then
    ({ count := c, robot := (lower_hand s.robot).1 }, (lower_hand s.robot).2)
  else
    ({ count := c, robot := s.robot }, [])

/-- `Audience.set_count`: under the mutex, raise the hand if the previous
count was 0 and the new value is positive, lower it if the previous count was
positive and the new value is 0, then assign the new value to the count. -/
def set_count (n : Int) (s : AudienceState) : AudienceState × List Event :=
  let p1 := if s.count = 0 ∧ 0 < n then raise_hand s.robot else (s.robot, [])
  let p2 := if 0 < s.count ∧ n = 0 then lower_hand p1.1 else (p1.1, [])
  ({ count := n, robot := p2.1 }, p1.2 ++ p2.2)

/-- One call to a public `Audience` operation. -/
inductive Op where
  | inc
  | dec
  | set (n : Int)
deriving Repr, DecidableEq

/-- Run one operation. -/
def applyOp (s : AudienceState) : Op → AudienceState × List Event
  | .inc => increment_count s
  | .dec => decrement_count s
  | .set n => set_count n s

/-- Run a sequence of operations, concatenating their event traces. -/
def runOps (s : AudienceState) : List Op → AudienceState × List Event
  | [] => (s, [])
  | o :: os =>
      ((runOps (applyOp s o).1 os).1,
       (applyOp s o).2 ++ (runOps (applyOp s o).1 os).2)

/-- The count after applying one operation to a count. -/
def newCount (c : Int) : Op → Int
  | .inc => c + 1
  | .dec => c - 1
  | .set n => n

/-- The running counts after each operation of a sequence, starting from `c`.
This is determined by the counts alone, independent of the robot. -/
def countsAfter (c : Int) : List Op → List Int
  | [] => []
  | o :: os => newCount c o :: countsAfter (newCount c o) os

/-- The number of transitions of the running count from 0 to positive. -/
def upTransitions (c : Int) : List Op → Nat
  | [] => 0
  | o :: os =>
      (if c = 0 ∧ 0 < newCount c o then 1 else 0) + upTransitions (newCount c o) os

/-- The number of transitions of the running count from positive to 0. -/
def downTransitions (c : Int) : List Op → Nat
  | [] => 0
  | o :: os =>
      (if 0 < c ∧ newCount c o = 0 then 1 else 0) + downTransitions (newCount c o) os

/-- The coordinator invariant relating the two pieces of state: the wiggle
task handle is present exactly when the count is positive. -/
def Inv (s : AudienceState) : Prop := s.robot.wiggler = decide (0 < s.count)

instance (s : AudienceState) : Decidable (Inv s) := by
  unfold Inv; infer_instance

/-- The initial coordinator state: count 0, no wiggle task, hand lowered by
`Robot.start`. -/
def initState : AudienceState :=
  { count := 0, robot := { wiggler := false, pos := LOWER_POSITION } }

/-! ## Fallible variants

`Servo.move` is awaited over the network and may raise.  Each operation below
takes a `Bool` saying whether the servo move it performs (each call performs
at most one) fails; the `Except.error` payload is the state and the events
already performed when the exception escapes the call.  Neither `audience.py`
nor `robot.py` contains any `try`/`except` around a servo move, so the
exception propagates to the caller with whatever partial updates the body made
before the move. -/

/-- `Robot.raise_hand` with a possibly-failing servo move.  The move happens
before `self.wiggler` is assigned, so on failure the task handle is unchanged
and no task is started. -/
def raise_handE (mf : Bool) (r : RobotState) :
    Except (RobotState × List Event) (RobotState × List Event) :=
  if r.wiggler then
    .ok (r, [.warnLogicBug])
  else if mf then
    .error (r, [])
  else
    .ok ({ wiggler := true, pos := UPPER_POSITION },
         [.servoMove UPPER_POSITION, .taskStart])

/-- `Robot.lower_hand` with a possibly-failing servo move.  The cancel, the
await of the task, and the clearing of `self.wiggler` all happen before the
move, so on failure the handle has already been cleared. -/
def lower_handE (mf : Bool) (r : RobotState) :
    Except (RobotState × List Event) (RobotState × List Event) :=
  if r.wiggler then
    if mf then
      .error ({ wiggler := false, pos := r.pos }, [.taskCancel, .taskAwaitExit])
    else
      .ok ({ wiggler := false, pos := LOWER_POSITION },
           [.taskCancel, .taskAwaitExit, .servoMove LOWER_POSITION])
  else
    .ok (r, [.warnLogicBug])

/-- `Audience.increment_count` with a possibly-failing servo move.  The count
is incremented before `raise_hand` is awaited, so on failure the incremented
count is kept. -/
def increment_countE (mf : Bool) (s : AudienceState) :
    Except (AudienceState × List Event) (AudienceState × List Event) :=
  let c := s.count + 1
  if c = 1 then
    match raise_handE mf s.robot with
    | .ok (r, es) => .ok ({ count := c, robot := r }, es)
    | .error (r, es) => .error ({ count := c, robot := r }, es)
  else
    .ok ({ count := c, robot := s.robot }, [])

/-- `Audience.decrement_count` with a possibly-failing servo move.  The count
is decremented before `lower_hand` is awaited, so on failure the decremented
count is kept. -/
def decrement_countE (mf : Bool) (s : AudienceState) :
    Except (AudienceState × List Event) (AudienceState × List Event) :=
  let c := s.count - 1
  if c = 0 then
    match lower_handE mf s.robot with
    | .ok (r, es) => .ok ({ count := c, robot := r }, es)
    | .error (r, es) => .error ({ count := c, robot := r }, es)
  else
    .ok ({ count := c, robot := s.robot }, [])

/-- `Audience.set_count` with a possibly-failing servo move.  The assignment
`self.count = new_value` comes after both conditional robot calls, so on
failure the count is unchanged. -/
def set_countE (mf : Bool) (n : Int) (s : AudienceState) :
    Except (AudienceState × List Event) (AudienceState × List Event) :=
  match (if s.count = 0 ∧ 0 < n then raise_handE mf s.robot else .ok (s.robot, [])) with
  | .error (r, es) => .error ({ count := s.count, robot := r }, es)
  | .ok (r1, es1) =>
    match (if 0 < s.count ∧ n = 0 then lower_handE mf r1 else .ok (r1, [])) with
    | .error (r, es) => .error ({ count := s.count, robot := r }, es1 ++ es)
    | .ok (r2, es2) => .ok ({ count := n, robot := r2 }, es1 ++ es2)

/-! ## The background wiggle task

`Robot._wiggle_on_inactivity` is `try: while True: ... except CancelledError:
return`.  One iteration of the `while` loop sleeps for the inactivity period,
performs three oscillations (move to `UPPER_POSITION + WIGGLE_AMOUNT`, sleep,
move to `UPPER_POSITION - WIGGLE_AMOUNT`, sleep), and finally moves back to
`UPPER_POSITION`. -/

/-- The events of one iteration of the `for _ in range(3)` body. -/
def oscillation_events : List Event :=
  [.servoMove (UPPER_POSITION + WIGGLE_AMOUNT), .sleepWiggle,
   .servoMove (UPPER_POSITION - WIGGLE_AMOUNT), .sleepWiggle]

/-- The events of one full iteration of the `while True` loop in
`_wiggle_on_inactivity`: inactivity sleep, three oscillations, then the move
that puts the arm back up. -/
def wiggle_cycle_events : List Event :=
  .sleepInactivity :: ((List.replicate 3 oscillation_events).flatten
    ++ [.servoMove UPPER_POSITION])

/-- The servo targets commanded in a list of events. -/
def servoTargets : List Event → List Int
  | [] => []
  | .servoMove t :: es => t :: servoTargets es
  | _ :: es => servoTargets es

/-- How a finished task body terminated. -/
inductive TaskOutcome where
  /-- The coroutine returned normally. -/
  | normalReturn
  /-- The coroutine let `asyncio.CancelledError` escape. -/
  | raisedCancelled
deriving Repr, DecidableEq

/-- The events the `while True` loop of `_wiggle_on_inactivity` emits over its
first `n` iterations, would it never be cancelled. -/
def wiggle_events (n : Nat) : List Event :=
  (List.range n).flatMap fun _ => wiggle_cycle_events

/-- `Robot._wiggle_on_inactivity` when `Task.cancel` delivers
`asyncio.CancelledError` at the awaited point reached after `k` events: the
loop has emitted the first `k` events of its stream, the exception unwinds it,
and the `except asyncio.CancelledError: return` handler catches it, so the
coroutine returns normally. -/
def wiggle_on_inactivity (cancelAtEvent : Nat) : TaskOutcome × List Event :=
  (.normalReturn, (wiggle_events (cancelAtEvent + 1)).take cancelAtEvent)

/-- `await task` on a finished task: it raises only if the coroutine let the
cancellation escape. -/
def awaitTask : TaskOutcome → Except Unit Unit
  | .normalReturn => .ok ()
  | .raisedCancelled => .error ()

/-! ## Connection lifecycle (`create_robot`) -/

/-- The teardown half of the `create_robot` context manager: the `finally`
block runs `await robot.stop()` and then `await client.close()`. -/
def create_robot_teardown (r : RobotState) : RobotState × List Event :=
  ((robot_stop r).1, (robot_stop r).2 ++ [.closeConnection])

/-- A whole session under `create_robot`: `Robot.start` lowers the hand, an
`Audience` with count 0 runs an arbitrary sequence of operations, and the
context manager tears down on exit.  Returns the final robot state and the
full event trace. -/
def session (p0 : Int) (ops : List Op) : RobotState × List Event :=
  let p1 := robot_start { wiggler := false, pos := p0 }
  let p2 := runOps { count := 0, robot := p1.1 } ops
  let p3 := create_robot_teardown p2.1.robot
  (p3.1, p1.2 ++ p2.2 ++ p3.2)

/-! ## Interleaving model of two concurrent `increment_count` calls

Here the `asyncio.Lock` is modelled explicitly: two tasks each run the body of
`Audience.increment_count` (including the inlined body of `Robot.raise_hand`)
broken into its individual statements, and an adversarial scheduler picks
which task performs the next statement.  This is strictly more adversarial
than asyncio, which can only switch tasks at `await` points.  A task whose
next statement is acquiring a lock held by the other task is blocked: the
scheduler step leaves the state unchanged. -/

namespace Conc

/-- Global state of the two-task interleaving.  `pc0`/`pc1` are the program
counters of the two tasks, both running `increment_count`:
pc 0 = `async with self.mutex` (acquire), pc 1 = `self.count += 1`,
pc 2 = `if self.count == 1`, pc 3 = `raise_hand`'s `if self.wiggler is not
None` guard, pc 4 = `await self.servo.move(UPPER_POSITION)`, pc 5 =
`self.wiggler = asyncio.create_task(...)`, pc 6 = release of the mutex,
pc 7 = finished.  `raised` and `started` count the `servoMove UPPER_POSITION`
commands and task starts performed so far. -/
structure CState where
  lockHeld : Option Bool
  count : Int
  wiggler : Bool
  raised : Nat
  started : Nat
  pc0 : Nat
  pc1 : Nat
deriving Repr, DecidableEq

/-- One scheduler step: task `who` executes its next statement (or stays put
if it is blocked acquiring the mutex). -/
def step (who : Bool) (s : CState) : CState :=
  let pc := if who then s.pc1 else s.pc0
  let setPc : CState → Nat → CState := fun s' p =>
    if who then { s' with pc1 := p } else { s' with pc0 := p }
  match pc with
  | 0 => match s.lockHeld with
         | none => setPc { s with lockHeld := some who } 1
         | some _ => s
  | 1 => setPc { s with count := s.count + 1 } 2
  | 2 => if s.count = 1 then setPc s 3 else setPc s 6
  | 3 => if s.wiggler then setPc s 6 else setPc s 4
  | 4 => setPc { s with raised := s.raised + 1 } 5
  | 5 => setPc { s with wiggler := true, started := s.started + 1 } 6
  | 6 => setPc { s with lockHeld := none } 7
  | _ => s

/-- The Idle initial state: count 0, no wiggle task, lock free, both tasks
about to start. -/
def initC : CState :=
  { lockHeld := none, count := 0, wiggler := false, raised := 0, started := 0,
    pc0 := 0, pc1 := 0 }

/-- Run a schedule (a list of task choices). -/
def run (sched : List Bool) (s : CState) : CState :=
  sched.foldl (fun t w => step w t) s

/-- Both tasks have finished their `increment_count` call. -/
def finished (s : CState) : Prop := s.pc0 = 7 ∧ s.pc1 = 7

instance (s : CState) : Decidable (finished s) := by
  unfold finished; infer_instance

def addNew (acc : List CState) (x : CState) : List CState :=
  if x ∈ acc then acc else x :: acc

def expand (l : List CState) : List CState :=
  l.foldl (fun acc s => addNew (addNew acc (step false s)) (step true s)) l

/-- All states reachable from `initC` under any schedule (each task takes at
most 7 steps, so 16 rounds of expansion are more than enough to close). -/
def reach : List CState := expand^[16] [initC]

end Conc

/-- The number of occurrences of a given event in a trace. -/
def countEv (e : Event) (es : List Event) : Nat := (es.filter (· = e)).length

/-- The robot-level invariant used for teardown: whenever no wiggle task is
running, the last commanded servo position is the lowered one. -/
def PosInv (r : RobotState) : Prop := r.wiggler = false → r.pos = LOWER_POSITION

/-- The count after a whole sequence of operations. -/
def finalCount (c : Int) : List Op → Int
  | [] => c
  | o :: os => finalCount (newCount c o) os

/-!
# Theorems
-/

example : increment_count initState =
    ({ count := 1, robot := { wiggler := true, pos := UPPER_POSITION } },
     [.servoMove UPPER_POSITION, .taskStart]) := by decide

example : (runOps initState [.inc, .inc, .dec, .dec]).2 =
    [.servoMove UPPER_POSITION, .taskStart,
     .taskCancel, .taskAwaitExit, .servoMove LOWER_POSITION] := by decide

example : wiggle_on_inactivity 3 =
    (.normalReturn, [.sleepInactivity, .servoMove 100, .sleepWiggle]) := by decide

example : (session 37 [.inc, .inc]).1 =
    { wiggler := false, pos := LOWER_POSITION } := by decide

/-- With no servo fault, the fallible variants agree with the plain ones. -/
theorem raise_handE_false (r : RobotState) : raise_handE false r = .ok (raise_hand r) := by
  unfold raise_handE raise_hand
  by_cases h : r.wiggler <;> simp [h]

theorem lower_handE_false (r : RobotState) : lower_handE false r = .ok (lower_hand r) := by
  unfold lower_handE lower_hand
  by_cases h : r.wiggler <;> simp [h]

theorem increment_countE_false (s : AudienceState) :
    increment_countE false s = .ok (increment_count s) := by
  unfold increment_countE increment_count
  by_cases h : s.count + 1 = 1 <;> simp [h, raise_handE_false]

theorem decrement_countE_false (s : AudienceState) :
    decrement_countE false s = .ok (decrement_count s) := by
  unfold decrement_countE decrement_count
  by_cases h : s.count - 1 = 0 <;> simp [h, lower_handE_false]

theorem set_countE_false (n : Int) (s : AudienceState) :
    set_countE false n s = .ok (set_count n s) := by
  unfold set_countE set_count
  by_cases h1 : s.count = 0 ∧ 0 < n <;> by_cases h2 : 0 < s.count ∧ n = 0 <;>
    simp [h1, h2, raise_handE_false, lower_handE_false]

theorem countEv_append (e : Event) (a b : List Event) :
    countEv e (a ++ b) = countEv e a + countEv e b := by
  simp [countEv]

/-- The resulting count of each operation, with no side conditions. -/
theorem applyOp_count (s : AudienceState) (o : Op) :
    (applyOp s o).1.count = newCount s.count o := by
  cases o with
  | inc => simp only [applyOp, increment_count, newCount]; split <;> rfl
  | dec => simp only [applyOp, decrement_count, newCount]; split <;> rfl
  | set n => rfl

/-- One operation from an invariant state with a non-negative count, whose
resulting count is also non-negative: the invariant is preserved, and the
operation emits the Raised servo move and the task start exactly when the
count goes 0 to positive, and the Lowered servo move exactly when it goes
positive to 0. -/
theorem applyOp_spec (s : AudienceState) (o : Op) (hInv : Inv s) (h0 : 0 ≤ s.count)
    (h1 : 0 ≤ newCount s.count o) :
    Inv (applyOp s o).1 ∧
    countEv (.servoMove UPPER_POSITION) (applyOp s o).2 =
      (if s.count = 0 ∧ 0 < newCount s.count o then 1 else 0) ∧
    countEv .taskStart (applyOp s o).2 =
      (if s.count = 0 ∧ 0 < newCount s.count o then 1 else 0) ∧
    countEv (.servoMove LOWER_POSITION) (applyOp s o).2 =
      (if 0 < s.count ∧ newCount s.count o = 0 then 1 else 0) := by
  unfold Inv at hInv
  cases o with
  | inc =>
      by_cases hc : s.count + 1 = 1
      · have hc0 : s.count = 0 := by omega
        have hw : s.robot.wiggler = false := by rw [hInv, hc0]; rfl
        simp [applyOp, increment_count, hc, raise_hand, hw, Inv, newCount, countEv, hc0,
          UPPER_POSITION, LOWER_POSITION]
      · have hA : ¬(s.count = 0 ∧ 0 < s.count + 1) := by omega
        have hB : ¬(0 < s.count ∧ s.count + 1 = 0) := by omega
        have hpos : (0 : Int) < s.count := by omega
        have hpos' : (0 : Int) < s.count + 1 := by omega
        refine ⟨?_, ?_⟩
        · simp only [applyOp, increment_count, hc, if_neg, Inv]
          simp [hInv, hpos, hpos']
        · simp [applyOp, increment_count, hc, countEv, newCount, hA, hB]
  | dec =>
      by_cases hc : s.count - 1 = 0
      · have hc1 : s.count = 1 := by omega
        have hw : s.robot.wiggler = true := by rw [hInv, hc1]; rfl
        simp [applyOp, decrement_count, hc, lower_hand, hw, Inv, newCount, countEv, hc1,
          UPPER_POSITION, LOWER_POSITION]
      · have hpos : (0 : Int) < s.count - 1 := by
          simp only [newCount] at h1; omega
        have hpos2 : (0 : Int) < s.count := by omega
        have hA : ¬(s.count = 0 ∧ 0 < s.count - 1) := by omega
        have hA' : ¬(s.count = 0 ∧ 1 < s.count) := by omega
        have hB : ¬(0 < s.count ∧ s.count - 1 = 0) := by omega
        have hB' : ¬(0 < s.count ∧ s.count = 1) := by omega
        refine ⟨?_, ?_⟩
        · simp only [applyOp, decrement_count, hc, if_neg, Inv]
          simp [hInv, hpos, hpos2]
        · simp [applyOp, decrement_count, hc, countEv, newCount, hA, hA', hB, hB']
  | set n =>
      simp only [newCount] at h1 ⊢
      by_cases hup : s.count = 0 ∧ 0 < n
      · have hw : s.robot.wiggler = false := by rw [hInv, hup.1]; rfl
        have hnd : ¬(0 < s.count ∧ n = 0) := by omega
        simp [applyOp, set_count, hup, hnd, raise_hand, hw, Inv, countEv, hup.1, hup.2,
          UPPER_POSITION, LOWER_POSITION]
      · by_cases hdn : 0 < s.count ∧ n = 0
        · have hw : s.robot.wiggler = true := by
            rw [hInv]; simp [hdn.1]
          have hA : ¬(s.count = 0 ∧ 0 < n) := hup
          simp [applyOp, set_count, hA, hdn, lower_hand, hw, Inv, countEv, hdn.1, hdn.2,
            UPPER_POSITION, LOWER_POSITION]
        · have hiff : (0 < s.count) ↔ (0 < n) := by omega
          refine ⟨?_, ?_⟩
          · simp [applyOp, set_count, hup, hdn, Inv]
            rw [hInv]
            exact decide_eq_decide.mpr hiff
          · simp [applyOp, set_count, hup, hdn, countEv]

/-- Event counts over a whole operation sequence from an invariant state whose
running counts never go negative: the invariant is preserved, and the Raised
move, the task starts, and the Lowered move are each emitted exactly once per
corresponding zero-boundary transition of the running count. -/
theorem runOps_spec (ops : List Op) (s : AudienceState) (hInv : Inv s) (h0 : 0 ≤ s.count)
    (h : ∀ c ∈ countsAfter s.count ops, 0 ≤ c) :
    Inv (runOps s ops).1 ∧
    (runOps s ops).1.count = finalCount s.count ops ∧
    countEv (.servoMove UPPER_POSITION) (runOps s ops).2 = upTransitions s.count ops ∧
    countEv .taskStart (runOps s ops).2 = upTransitions s.count ops ∧
    countEv (.servoMove LOWER_POSITION) (runOps s ops).2 = downTransitions s.count ops := by
  induction ops generalizing s with
  | nil =>
      exact ⟨hInv, rfl, rfl, rfl, rfl⟩
  | cons o os ih =>
      have hnc : 0 ≤ newCount s.count o := h (newCount s.count o) (by simp [countsAfter])
      obtain ⟨hI1, hU, hT, hL⟩ := applyOp_spec s o hInv h0 hnc
      have hcnt : (applyOp s o).1.count = newCount s.count o := applyOp_count s o
      have htail : ∀ c ∈ countsAfter (applyOp s o).1.count os, 0 ≤ c := by
        rw [hcnt]; intro c hcmem; exact h c (by simp [countsAfter, hcmem])
      obtain ⟨iI, iC, iU, iT, iL⟩ := ih (applyOp s o).1 hI1 (by rw [hcnt]; exact hnc) htail
      rw [hcnt] at iC iU iT iL
      refine ⟨iI, ?_, ?_, ?_, ?_⟩
      · show (runOps (applyOp s o).1 os).1.count = finalCount s.count (o :: os)
        rw [iC]; rfl
      · show countEv _ ((applyOp s o).2 ++ (runOps (applyOp s o).1 os).2) = _
        rw [countEv_append, hU, iU]; rfl
      · show countEv _ ((applyOp s o).2 ++ (runOps (applyOp s o).1 os).2) = _
        rw [countEv_append, hT, iT]; rfl
      · show countEv _ ((applyOp s o).2 ++ (runOps (applyOp s o).1 os).2) = _
        rw [countEv_append, hL, iL]; rfl

namespace Conc

set_option maxRecDepth 40000

theorem initC_mem_reach : initC ∈ reach := by decide

theorem reach_closed : ∀ s ∈ reach, step false s ∈ reach ∧ step true s ∈ reach := by
  decide

theorem reach_finished_ok : ∀ s ∈ reach, finished s →
    s.count = 2 ∧ s.raised = 1 ∧ s.started = 1 ∧ s.wiggler = true ∧
    s.lockHeld = none := by
  decide

theorem run_mem_reach (sched : List Bool) (s : CState) (h : s ∈ reach) :
    run sched s ∈ reach := by
  induction sched generalizing s with
  | nil => exact h
  | cons w ws ih =>
      have h2 := reach_closed s h
      cases w
      · exact ih (step false s) h2.1
      · exact ih (step true s) h2.2

end Conc

/-- `set_count` with both the previous count and the new value positive is a
pure count update: no robot call at all. -/
theorem set_count_pos_pos (s : AudienceState) (n : Int) (hc : 0 < s.count) (hn : 0 < n) :
    set_count n s = ({ count := n, robot := s.robot }, []) := by
  have h1 : ¬(s.count = 0 ∧ 0 < n) := by omega
  have h2 : ¬(0 < s.count ∧ n = 0) := by omega
  simp [set_count, h1, h2]

/-- `set_count 0` with the previous count 0 is a pure count update: no robot
call at all. -/
theorem set_count_zero_zero (s : AudienceState) (hc : s.count = 0) :
    set_count 0 s = ({ count := 0, robot := s.robot }, []) := by
  have h1 : ¬(s.count = 0 ∧ (0 : Int) < 0) := by omega
  have h3 : ¬(0 < s.count) := by omega
  simp [set_count, h1, h3]

/-- Repeating `set_count n` with positive `n` from a state whose count is
already positive emits no event at all and never touches the robot. -/
theorem runOps_replicate_set_pos (n : Int) (hn : 0 < n) (k : Nat) (s : AudienceState)
    (hc : 0 < s.count) :
    (runOps s (List.replicate k (Op.set n))).2 = [] ∧
    (runOps s (List.replicate k (Op.set n))).1.robot = s.robot ∧
    0 < (runOps s (List.replicate k (Op.set n))).1.count := by
  induction k generalizing s with
  | zero => exact ⟨rfl, rfl, hc⟩
  | succ k ih =>
      have hstep : applyOp s (Op.set n) = ({ count := n, robot := s.robot }, []) :=
        set_count_pos_pos s n hc hn
      have := ih { count := n, robot := s.robot } hn
      simp only [List.replicate_succ, runOps, hstep] at *
      exact ⟨this.1, this.2.1, this.2.2⟩

/-- Repeating `set_count 0` from a state whose count is already 0 emits no
event at all and never touches the robot. -/
theorem runOps_replicate_set_zero (k : Nat) (s : AudienceState) (hc : s.count = 0) :
    (runOps s (List.replicate k (Op.set 0))).2 = [] ∧
    (runOps s (List.replicate k (Op.set 0))).1.robot = s.robot ∧
    (runOps s (List.replicate k (Op.set 0))).1.count = 0 := by
  induction k generalizing s with
  | zero => exact ⟨rfl, rfl, hc⟩
  | succ k ih =>
      have hstep : applyOp s (Op.set 0) = ({ count := 0, robot := s.robot }, []) :=
        set_count_zero_zero s hc
      have := ih { count := 0, robot := s.robot } rfl
      simp only [List.replicate_succ, runOps, hstep] at *
      exact ⟨this.1, this.2.1, this.2.2⟩

/-- The whole trace of `k` repeated `set_count n` calls with `n > 0`: one
Raised command and one task start when the initial count is 0 and there is at
least one call, nothing otherwise. -/
theorem replicate_set_pos_trace (s : AudienceState) (n : Int) (k : Nat)
    (hInv : Inv s) (h0 : 0 ≤ s.count) (hn : 0 < n) :
    (runOps s (List.replicate k (Op.set n))).2 =
      if s.count = 0 ∧ 1 ≤ k then [.servoMove UPPER_POSITION, .taskStart] else [] := by
  rcases Nat.eq_zero_or_pos k with hk | hk
  · subst hk; simp [runOps]
  · rcases (by omega : s.count = 0 ∨ 0 < s.count) with hz | hp
    · obtain ⟨j, rfl⟩ : ∃ j, k = j + 1 := ⟨k - 1, by omega⟩
      have hw : s.robot.wiggler = false := by rw [hInv, hz]; rfl
      have hfst : applyOp s (Op.set n) =
          ({ count := n, robot := { wiggler := true, pos := UPPER_POSITION } },
           [.servoMove UPPER_POSITION, .taskStart]) := by
        have h2 : ¬(0 < s.count ∧ n = 0) := by omega
        simp [applyOp, set_count, hz, hn, h2, raise_hand, hw]
      have hrest := runOps_replicate_set_pos n hn j
          { count := n, robot := { wiggler := true, pos := UPPER_POSITION } } hn
      simp only [List.replicate_succ, runOps, hfst]
      rw [hrest.1]
      simp [hz]
    · have hr := runOps_replicate_set_pos n hn k s hp
      rw [hr.1]
      have hne : ¬(s.count = 0 ∧ 1 ≤ k) := by omega
      simp [hne]

/-- The whole trace of `k` repeated `set_count 0` calls: one cancel-join-lower
sequence when the initial count is positive and there is at least one call,
nothing otherwise. -/
theorem replicate_set_zero_trace (s : AudienceState) (k : Nat)
    (hInv : Inv s) (h0 : 0 ≤ s.count) :
    (runOps s (List.replicate k (Op.set 0))).2 =
      if 0 < s.count ∧ 1 ≤ k then
        [.taskCancel, .taskAwaitExit, .servoMove LOWER_POSITION]
      else [] := by
  rcases Nat.eq_zero_or_pos k with hk | hk
  · subst hk; simp [runOps]
  · rcases (by omega : s.count = 0 ∨ 0 < s.count) with hz | hp
    · have hr := runOps_replicate_set_zero k s hz
      rw [hr.1]
      have hne : ¬(0 < s.count ∧ 1 ≤ k) := by omega
      simp [hne]
    · obtain ⟨j, rfl⟩ : ∃ j, k = j + 1 := ⟨k - 1, by omega⟩
      have hw : s.robot.wiggler = true := by rw [hInv]; simp [hp]
      have hfst : applyOp s (Op.set 0) =
          ({ count := 0, robot := { wiggler := false, pos := LOWER_POSITION } },
           [.taskCancel, .taskAwaitExit, .servoMove LOWER_POSITION]) := by
        have h1 : ¬(s.count = 0 ∧ (0 : Int) < 0) := by omega
        simp [applyOp, set_count, h1, hp, lower_hand, hw]
      have hrest := runOps_replicate_set_zero j
          { count := 0, robot := { wiggler := false, pos := LOWER_POSITION } } rfl
      simp only [List.replicate_succ, runOps, hfst]
      rw [hrest.1]
      simp [hp]

/-- `raise_hand` and `lower_hand` preserve the lowered-when-idle invariant. -/
theorem posInv_hand (r : RobotState) (h : PosInv r) :
    PosInv (raise_hand r).1 ∧ PosInv (lower_hand r).1 := by
  unfold PosInv at *
  unfold raise_hand lower_hand
  by_cases hw : r.wiggler <;> simp [hw, h]

/-- Every coordinator operation preserves the lowered-when-idle invariant. -/
theorem posInv_applyOp (s : AudienceState) (o : Op) (h : PosInv s.robot) :
    PosInv (applyOp s o).1.robot := by
  cases o with
  | inc =>
      simp only [applyOp, increment_count]
      split
      · exact (posInv_hand s.robot h).1
      · exact h
  | dec =>
      simp only [applyOp, decrement_count]
      split
      · exact (posInv_hand s.robot h).2
      · exact h
  | set n =>
      by_cases h1 : s.count = 0 ∧ 0 < n
      · have h2 : ¬(0 < s.count ∧ n = 0) := by omega
        simp [applyOp, set_count, h1, h2]
        exact (posInv_hand s.robot h).1
      · by_cases h2 : 0 < s.count ∧ n = 0
        · simp [applyOp, set_count, h1, h2]
          exact (posInv_hand s.robot h).2
        · simp [applyOp, set_count, h1, h2]
          exact h

/-- Any operation sequence preserves the lowered-when-idle invariant. -/
theorem posInv_runOps (ops : List Op) (s : AudienceState) (h : PosInv s.robot) :
    PosInv (runOps s ops).1.robot := by
  induction ops generalizing s with
  | nil => exact h
  | cons o os ih => exact ih (applyOp s o).1 (posInv_applyOp s o h)

/-- C1: over any finite sequence of coordinator calls from the initial Idle
state whose running count never goes below zero, the Raised command (the
servo move to the raised position, together with the wiggle-task start that
`raise_hand` performs) is issued exactly once per transition of the count
from 0 to positive, the Lowered command exactly once per transition from
positive back to 0, and any call that leaves the count positive both before
and after issues no actuator command at all. -/
theorem raised_lowered_exactly_once_per_zero_transition
    (ops : List Op) (h : ∀ c ∈ countsAfter 0 ops, 0 ≤ c) :
    countEv (.servoMove UPPER_POSITION) (runOps initState ops).2 = upTransitions 0 ops ∧
    countEv .taskStart (runOps initState ops).2 = upTransitions 0 ops ∧
    countEv (.servoMove LOWER_POSITION) (runOps initState ops).2 = downTransitions 0 ops ∧
    (∀ (s : AudienceState) (o : Op), 0 < s.count → 0 < newCount s.count o →
      (applyOp s o).2 = []) := by
  have hs := runOps_spec ops initState (by decide) (by decide) h
  refine ⟨hs.2.2.1, hs.2.2.2.1, hs.2.2.2.2, ?_⟩
  intro s o hb ha
  cases o with
  | inc =>
      have hne : ¬(s.count + 1 = 1) := by omega
      simp [applyOp, increment_count, hne]
  | dec =>
      have hne : ¬(s.count - 1 = 0) := by simp only [newCount] at ha; omega
      simp [applyOp, decrement_count, hne]
  | set n =>
      simp only [newCount] at ha
      have h1 : ¬(s.count = 0 ∧ 0 < n) := by omega
      have h2 : ¬(0 < s.count ∧ n = 0) := by omega
      simp [applyOp, set_count, h1, h2]

/-- Witness for C1 at the concrete sequence inc, inc, dec, inc, dec, dec
(counts 1, 2, 1, 2, 1, 0: one 0-to-positive and one positive-to-0
transition). -/
theorem raised_lowered_exactly_once_per_zero_transition_witness :
    countEv (.servoMove UPPER_POSITION)
      (runOps initState [Op.inc, Op.inc, Op.dec, Op.inc, Op.dec, Op.dec]).2 =
      upTransitions 0 [Op.inc, Op.inc, Op.dec, Op.inc, Op.dec, Op.dec] :=
  (raised_lowered_exactly_once_per_zero_transition
    [Op.inc, Op.inc, Op.dec, Op.inc, Op.dec, Op.dec] (by decide)).1

/-- C2: from any reachable coordinator state, `k` repeated `set_count n`
calls with the same `n > 0` issue the Raised command and start the wiggle
task exactly once if the count was 0 (and `k ≥ 1`), and not at all otherwise;
a `set_count n` while the count is already positive performs no actuator
action whatsoever; `k` repeated `set_count 0` calls issue the Lowered command
exactly once if the count was positive (and `k ≥ 1`) and no Raised command
ever; and `set_count 0` when the count is already 0 performs no actuator
action. -/
theorem set_count_idempotent_actuator_effects (s : AudienceState) (n : Int) (k : Nat)
    (hInv : Inv s) (h0 : 0 ≤ s.count) (hn : 0 < n) :
    countEv (.servoMove UPPER_POSITION) (runOps s (List.replicate k (Op.set n))).2 =
      (if s.count = 0 ∧ 1 ≤ k then 1 else 0) ∧
    countEv .taskStart (runOps s (List.replicate k (Op.set n))).2 =
      (if s.count = 0 ∧ 1 ≤ k then 1 else 0) ∧
    (0 < s.count → (set_count n s).2 = []) ∧
    countEv (.servoMove LOWER_POSITION) (runOps s (List.replicate k (Op.set 0))).2 =
      (if 0 < s.count ∧ 1 ≤ k then 1 else 0) ∧
    countEv (.servoMove UPPER_POSITION) (runOps s (List.replicate k (Op.set 0))).2 = 0 ∧
    (s.count = 0 → (set_count 0 s).2 = []) := by
  have hA := replicate_set_pos_trace s n k hInv h0 hn
  have hB := replicate_set_zero_trace s k hInv h0
  refine ⟨?_, ?_, ?_, ?_, ?_, ?_⟩
  · rw [hA]; split_ifs <;> decide
  · rw [hA]; split_ifs <;> decide
  · intro hp; exact congrArg Prod.snd (set_count_pos_pos s n hp hn)
  · rw [hB]; split_ifs <;> decide
  · rw [hB]; split_ifs <;> decide
  · intro hz; exact congrArg Prod.snd (set_count_zero_zero s hz)

/-- Witness for C2 at the Idle state with n = 3 and k = 2. -/
theorem set_count_idempotent_actuator_effects_witness :
    countEv (.servoMove UPPER_POSITION)
      (runOps initState (List.replicate 2 (Op.set 3))).2 =
      (if initState.count = 0 ∧ 1 ≤ 2 then 1 else 0) :=
  (set_count_idempotent_actuator_effects initState 3 2 (by decide) (by decide)
    (by decide)).1

/-- C3: a `decrement_count` that takes the count from 1 to 0, and a
`set_count 0` from a positive count, each first cancel the background wiggle
task and await its full exit, and only then issue the Lowered servo move,
which is the last action of the call: the emitted trace is exactly cancel,
join, move-to-lowered, so no wiggle move can follow the Lowered command. -/
theorem lower_cancels_and_joins_task_before_lowered_move :
    (∀ s : AudienceState, s.count = 1 → s.robot.wiggler = true →
       (decrement_count s).2 =
         [.taskCancel, .taskAwaitExit, .servoMove LOWER_POSITION]) ∧
    (∀ s : AudienceState, 0 < s.count → s.robot.wiggler = true →
       (set_count 0 s).2 =
         [.taskCancel, .taskAwaitExit, .servoMove LOWER_POSITION]) := by
  constructor
  · intro s h1 hw
    simp [decrement_count, h1, lower_hand, hw]
  · intro s hp hw
    have h1 : ¬(s.count = 0 ∧ (0 : Int) < 0) := by omega
    simp [set_count, h1, hp, lower_hand, hw]

/-- Witness for C3 at the concrete Active state with count 1. -/
theorem lower_cancels_and_joins_task_before_lowered_move_witness :
    (decrement_count { count := 1, robot := { wiggler := true, pos := UPPER_POSITION } }).2 =
      [.taskCancel, .taskAwaitExit, .servoMove LOWER_POSITION] :=
  lower_cancels_and_joins_task_before_lowered_move.1
    { count := 1, robot := { wiggler := true, pos := UPPER_POSITION } } rfl rfl

/-- C4 counterexample: from the Idle state, an `increment_count` whose servo
move fails does propagate the fault, but the error state carries count 1, not
the unchanged count 0 — `self.count += 1` runs before the failing
`raise_hand`, so the claim that the raised-hand count is left unchanged by
the failed call is false. -/
theorem failed_move_changes_count_counterexample :
    increment_countE true initState =
      .error ({ count := 1, robot := { wiggler := false, pos := LOWER_POSITION } }, []) ∧
    (1 : Int) ≠ (0 : Int) := by
  constructor
  · rfl
  · decide

/-- C4 amended: a failing servo move always propagates to the caller of
`increment_count`/`decrement_count`/`set_count` (it is never swallowed), and
`set_count` does leave the count unchanged on failure and a failed raise does
leave the wiggle-task handle unchanged; but `increment_count` and
`decrement_count` update the count before commanding the servo, so the failed
call keeps the already-updated count, and a failing lower move happens after
the wiggle task has been cancelled and the handle cleared, so the handle does
not survive a failed lower. -/
theorem fault_propagates_partial_bookkeeping :
    (∀ s : AudienceState, s.count = 0 → s.robot.wiggler = false →
       increment_countE true s = .error ({ count := 1, robot := s.robot }, [])) ∧
    (∀ s : AudienceState, s.count = 1 → s.robot.wiggler = true →
       decrement_countE true s =
         .error ({ count := 0, robot := { wiggler := false, pos := s.robot.pos } },
                 [.taskCancel, .taskAwaitExit])) ∧
    (∀ (s : AudienceState) (n : Int), s.count = 0 → s.robot.wiggler = false → 0 < n →
       set_countE true n s = .error ({ count := s.count, robot := s.robot }, [])) ∧
    (∀ s : AudienceState, 0 < s.count → s.robot.wiggler = true →
       set_countE true 0 s =
         .error ({ count := s.count, robot := { wiggler := false, pos := s.robot.pos } },
                 [.taskCancel, .taskAwaitExit])) := by
  refine ⟨?_, ?_, ?_, ?_⟩
  · intro s hz hw
    simp [increment_countE, hz, raise_handE, hw]
  · intro s h1 hw
    simp [decrement_countE, h1, lower_handE, hw]
  · intro s n hz hw hn
    have h2 : ¬(0 < s.count ∧ n = 0) := by omega
    simp [set_countE, hz, hn, h2, raise_handE, hw]
  · intro s hp hw
    have h1 : ¬(s.count = 0 ∧ (0 : Int) < 0) := by omega
    simp [set_countE, h1, hp, lower_handE, hw]

/-- Witness for the amended C4 at the Idle state. -/
theorem fault_propagates_partial_bookkeeping_witness :
    increment_countE true initState =
      .error ({ count := 1, robot := initState.robot }, []) :=
  fault_propagates_partial_bookkeeping.1 initState rfl rfl

/-- C5: `decrement_count` at count 0 sets the count to -1 with no clamping,
no exception (for any servo-fault behaviour, since no move is attempted) and
no actuator command; from any negative count, `increment_count` is a pure
count update issuing no actuator command (in particular when it passes back
through 0); and the `increment_count` that takes the count from 0 to exactly
1 issues the Raised command and starts the wiggle task. -/
theorem decrement_unguarded_below_zero :
    (∀ (mf : Bool) (s : AudienceState), s.count = 0 →
       decrement_countE mf s = .ok ({ count := -1, robot := s.robot }, [])) ∧
    (∀ s : AudienceState, s.count < 0 →
       increment_count s = ({ count := s.count + 1, robot := s.robot }, [])) ∧
    (∀ s : AudienceState, s.count = 0 → s.robot.wiggler = false →
       increment_count s =
         ({ count := 1, robot := { wiggler := true, pos := UPPER_POSITION } },
          [.servoMove UPPER_POSITION, .taskStart])) := by
  refine ⟨?_, ?_, ?_⟩
  · intro mf s hz
    have hne : ¬(s.count - 1 = 0) := by omega
    simp [decrement_countE, hne, hz]
  · intro s hneg
    have hne : ¬(s.count + 1 = 1) := by omega
    simp [increment_count, hne]
  · intro s hz hw
    simp [increment_count, hz, raise_hand, hw]

/-- Witness for C5: a decrement from the Idle state drives the count to -1
silently. -/
theorem decrement_unguarded_below_zero_witness :
    decrement_countE true initState = .ok ({ count := -1, robot := initState.robot }, []) :=
  decrement_unguarded_below_zero.1 true initState rfl

/-- C6: calling `raise_hand` with the wiggle task already running, or
`lower_hand` with no wiggle task running, only logs the LOGIC BUG warning:
no servo move is attempted (so no fault can occur either, for any servo
behaviour), no task is started or cancelled, the robot state is unchanged,
and no exception is raised. -/
theorem misuse_raise_lower_noop :
    (∀ (mf : Bool) (r : RobotState), r.wiggler = true →
       raise_handE mf r = .ok (r, [.warnLogicBug])) ∧
    (∀ (mf : Bool) (r : RobotState), r.wiggler = false →
       lower_handE mf r = .ok (r, [.warnLogicBug])) := by
  constructor
  · intro mf r hw; simp [raise_handE, hw]
  · intro mf r hw; simp [lower_handE, hw]

/-- Witness for C6 at concrete robot states, with a faulting servo. -/
theorem misuse_raise_lower_noop_witness :
    raise_handE true { wiggler := true, pos := UPPER_POSITION } =
      .ok ({ wiggler := true, pos := UPPER_POSITION }, [.warnLogicBug]) :=
  misuse_raise_lower_noop.1 true { wiggler := true, pos := UPPER_POSITION } rfl

/-- C7 counterexample: the wiggle cycle commands the target
`UPPER_POSITION - WIGGLE_AMOUNT` (86), which is neither the raised position
(93) nor raised plus offset (100) — the loop body oscillates left and right
of the raised position, it does not return to the raised position inside an
oscillation, so the claim that every intermediate servo target is raised or
raised-plus-offset is false. -/
theorem wiggle_oscillation_targets_counterexample :
    Event.servoMove (UPPER_POSITION - WIGGLE_AMOUNT) ∈ wiggle_cycle_events ∧
    UPPER_POSITION - WIGGLE_AMOUNT ≠ UPPER_POSITION ∧
    UPPER_POSITION - WIGGLE_AMOUNT ≠ UPPER_POSITION + WIGGLE_AMOUNT := by
  decide

/-- C7 amended: each wiggle cycle is exactly three oscillations — a servo
move to raised plus the wiggle offset, a brief hold, a servo move to raised
MINUS the wiggle offset, a brief hold — followed by a single final move back
to exactly the raised position; so every servo target during a wiggle cycle
is raised+offset, raised-offset, or the raised position. -/
theorem wiggle_cycle_structure :
    wiggle_cycle_events =
      [.sleepInactivity,
       .servoMove (UPPER_POSITION + WIGGLE_AMOUNT), .sleepWiggle,
       .servoMove (UPPER_POSITION - WIGGLE_AMOUNT), .sleepWiggle,
       .servoMove (UPPER_POSITION + WIGGLE_AMOUNT), .sleepWiggle,
       .servoMove (UPPER_POSITION - WIGGLE_AMOUNT), .sleepWiggle,
       .servoMove (UPPER_POSITION + WIGGLE_AMOUNT), .sleepWiggle,
       .servoMove (UPPER_POSITION - WIGGLE_AMOUNT), .sleepWiggle,
       .servoMove UPPER_POSITION] ∧
    (servoTargets wiggle_cycle_events).all
      (fun t => t == UPPER_POSITION + WIGGLE_AMOUNT ||
        t == UPPER_POSITION - WIGGLE_AMOUNT || t == UPPER_POSITION) = true := by
  decide

/-- C8: on teardown of the `create_robot` context, `Robot.stop` runs before
the client connection is closed: if a wiggle task exists it is cancelled and
joined and the Lowered move is commanded, all strictly before the
`closeConnection` event, which is always the last event of the teardown; and
after any whole session (start, any operation sequence, teardown) the
actuator ends at the Lowered position with no wiggle task running. -/
theorem teardown_lowers_before_connection_close :
    (∀ r : RobotState, r.wiggler = true →
       create_robot_teardown r =
         ({ wiggler := false, pos := LOWER_POSITION },
          [.taskCancel, .taskAwaitExit, .servoMove LOWER_POSITION, .closeConnection])) ∧
    (∀ r : RobotState, (create_robot_teardown r).2.getLast? = some .closeConnection) ∧
    (∀ (p0 : Int) (ops : List Op),
       (session p0 ops).1.pos = LOWER_POSITION ∧ (session p0 ops).1.wiggler = false) := by
  refine ⟨?_, ?_, ?_⟩
  · intro r hw
    simp [create_robot_teardown, robot_stop, lower_hand, hw]
  · intro r
    by_cases hw : r.wiggler <;>
      simp [create_robot_teardown, robot_stop, lower_hand, hw]
  · intro p0 ops
    have hpi : PosInv ({ wiggler := false, pos := LOWER_POSITION } : RobotState) :=
      fun _ => rfl
    have hinv := posInv_runOps ops
      { count := 0, robot := { wiggler := false, pos := LOWER_POSITION } } hpi
    show (create_robot_teardown
        (runOps { count := 0, robot := { wiggler := false, pos := LOWER_POSITION } }
          ops).1.robot).1.pos = LOWER_POSITION ∧
      (create_robot_teardown
        (runOps { count := 0, robot := { wiggler := false, pos := LOWER_POSITION } }
          ops).1.robot).1.wiggler = false
    revert hinv
    generalize (runOps ⟨0, ⟨false, LOWER_POSITION⟩⟩ ops).1.robot = r
    intro hinv
    by_cases hw : r.wiggler
    · simp [create_robot_teardown, robot_stop, lower_hand, hw]
    · have hb : r.wiggler = false := by simpa using hw
      have hpos := hinv hb
      simp [create_robot_teardown, robot_stop, hw, hpos, hb]

/-- Witness for C8 at a raised robot and at a concrete session. -/
theorem teardown_lowers_before_connection_close_witness :
    create_robot_teardown { wiggler := true, pos := UPPER_POSITION } =
      ({ wiggler := false, pos := LOWER_POSITION },
       [.taskCancel, .taskAwaitExit, .servoMove LOWER_POSITION, .closeConnection]) :=
  teardown_lowers_before_connection_close.1 { wiggler := true, pos := UPPER_POSITION } rfl

/-- C9: any complete interleaving of two concurrent `increment_count` calls
from the Idle state — under a scheduler that may switch tasks between any two
statements, with the mutex blocking a task whose next step is acquiring a
lock the other holds — ends with count 2, exactly one Raised servo command,
exactly one wiggle-task start, the task handle present, and the mutex
released: the lock fully serializes the two calls and no interleaving
partially applies either. -/
theorem concurrent_increments_fully_serialized (sched : List Bool)
    (h : Conc.finished (Conc.run sched Conc.initC)) :
    (Conc.run sched Conc.initC).count = 2 ∧
    (Conc.run sched Conc.initC).raised = 1 ∧
    (Conc.run sched Conc.initC).started = 1 ∧
    (Conc.run sched Conc.initC).wiggler = true ∧
    (Conc.run sched Conc.initC).lockHeld = none :=
  Conc.reach_finished_ok (Conc.run sched Conc.initC)
    (Conc.run_mem_reach sched Conc.initC Conc.initC_mem_reach) h

/-- Witness for C9 at the schedule that runs task 0 to completion and then
task 1. -/
theorem concurrent_increments_fully_serialized_witness :
    (Conc.run (List.replicate 7 false ++ List.replicate 7 true) Conc.initC).count = 2 :=
  (concurrent_increments_fully_serialized
    (List.replicate 7 false ++ List.replicate 7 true) (by decide)).1

/-- C10: wherever in its event stream the background task receives the
cancellation, the `except asyncio.CancelledError: return` handler catches it
and the coroutine returns normally, so awaiting the just-cancelled task — as
`lower_hand` does — always completes without raising, and stopping the wiggle
task never propagates a cancellation error to the caller that triggered the
stop. -/
theorem wiggle_task_catches_cancellation (cancelAtEvent : Nat) :
    (wiggle_on_inactivity cancelAtEvent).1 = TaskOutcome.normalReturn ∧
    awaitTask (wiggle_on_inactivity cancelAtEvent).1 = .ok () :=
  ⟨rfl, rfl⟩

end HandRaiser
